import Mathlib

/-!
Shallow embedding of the bucket-list goal store of this repository: the
`useBucketList` hook (src/unnamed/part_002, logger variant, lines 20-321;
the tracing variant at lines 341-546 has the same collection semantics and
differs only in how errors are surfaced) together with the UI submission
boundary `handleSubmit` and the category filter (src/unnamed/part_001 and
src/unnamed/part_000).

Modelling conventions:
- JS strings stay `String`; JS numbers that hold progress percentages are
  `Int` (the UI only ever supplies integers); timestamps written into
  `createdAt` / `updatedAt` are opaque `String` values supplied as a `now`
  parameter (the code calls `new Date().toISOString()`); the deadline is
  modelled as `Option Int` (epoch milliseconds after `new Date(deadline)`
  parsing; the empty string stored by the form is falsy in the JS guard
  `item.deadline && ...` and is modelled as `none`).
- `localStorage` is a field `storage` of the store state holding the last
  written blob; a blob either parses to an item list (`StoredBlob.ok`) or
  is corrupted and makes `JSON.parse` throw (`StoredBlob.bad`).  The field
  `writes` logs every `localStorage.setItem` call, newest first, so that
  "no persistence write occurred" is expressible.
- The nondeterministic id generator (`item_${Date.now()}_${Math.random()...}`
  in part_002, `Date.now().toString()` in part_000) is externalized: each
  add operation receives the generated id as an input.
- Thrown-and-caught `Error`s (missing id) become an `Option` result plus
  the error message the `catch` block stores via `setError`.
-/

/-- One bucket-list entry: the `BucketListItem` interface of
src/unnamed/part_002 lines 6-16. -/
structure BucketListItem where
  id : String
  title : String
  description : String
  category : String
  deadline : Option Int
  progress : Int
  completed : Bool
  createdAt : String
  updatedAt : String
  deriving DecidableEq

/-- The draft accepted by `addItem`: `Omit<BucketListItem, "id" | "createdAt"
| "updatedAt">` (src/unnamed/part_002 line 101). -/
structure ItemData where
  title : String
  description : String
  category : String
  deadline : Option Int
  progress : Int
  completed : Bool
  deriving DecidableEq

/-- A `Partial<BucketListItem>` as accepted by `updateItem`
(src/unnamed/part_002 line 150): every field may be present or absent.
The `updatedAt` field is accepted but always clobbered by the spread
`{ ...item, ...updates, updatedAt: new Date().toISOString() }`. -/
structure ItemUpdates where
  id : Option String := none
  title : Option String := none
  description : Option String := none
  category : Option String := none
  deadline : Option (Option Int) := none
  progress : Option Int := none
  completed : Option Bool := none
  createdAt : Option String := none
  updatedAt : Option String := none
  deriving DecidableEq

/-- The persisted snapshot blob: `JSON.parse` either yields an item list or
throws (corrupted data). -/
inductive StoredBlob where
  | ok (items : List BucketListItem)
  | bad
  deriving DecidableEq

/-- The observable state of the `useBucketList` hook: the `items` and
`error` React state plus the persistence backend (`storage` holds the
current `localStorage` blob, `writes` logs each `setItem` call, newest
first). -/
structure StoreState where
  items : List BucketListItem
  error : Option String
  storage : Option StoredBlob
  writes : List (List BucketListItem)
  deriving DecidableEq

/-- Initial hook state (`useState<BucketListItem[]>([])`,
`useState<string | null>(null)`) over a given pre-existing storage blob. -/
def initState (storage : Option StoredBlob) : StoreState :=
  { items := [], error := none, storage := storage, writes := [] }

/-- `saveItems` (src/unnamed/part_002 lines 69-97):
`localStorage.setItem(STORAGE_KEY, JSON.stringify(newItems))`.  Stringifying
a well-formed item list always yields a parseable blob. -/
def saveItems (newItems : List BucketListItem) (s : StoreState) : StoreState :=
  { s with storage := some (StoredBlob.ok newItems), writes := newItems :: s.writes }

/-- `loadItems` (src/unnamed/part_002 lines 26-66): reads the stored blob;
a missing blob leaves `items` untouched, a parse failure is caught and
stored in the error state, leaving `items` untouched. -/
def loadItems (s : StoreState) : StoreState :=
  match s.storage with
  | none => s
  | some (StoredBlob.ok parsedItems) => { s with items := parsedItems }
  | some StoredBlob.bad =>
      { s with error := some "Failed to load bucket list items from localStorage" }

/-- The record built by `addItem` (src/unnamed/part_002 lines 103-108):
the draft's fields plus a generated id and `createdAt = updatedAt = now`. -/
def mkNewItem (now newId : String) (d : ItemData) : BucketListItem :=
  { id := newId
  , title := d.title
  , description := d.description
  , category := d.category
  , deadline := d.deadline
  , progress := d.progress
  , completed := d.completed
  , createdAt := now
  , updatedAt := now }

/-- `addItem` (src/unnamed/part_002 lines 100-146): builds the new record,
appends it to the collection, persists the full snapshot and returns it. -/
def addItem (now newId : String) (d : ItemData) (s : StoreState) :
    BucketListItem × StoreState :=
  let newItem := mkNewItem now newId d
  let updatedItems := s.items ++ [newItem]
  (newItem, saveItems updatedItems { s with items := updatedItems })

/-- The spread `{ ...item, ...updates, updatedAt: new Date().toISOString() }`
of src/unnamed/part_002 line 165: present update fields overwrite the
record's fields, `updatedAt` is always refreshed. -/
def applyUpdates (now : String) (u : ItemUpdates) (it : BucketListItem) :
    BucketListItem :=
  { id := u.id.getD it.id
  , title := u.title.getD it.title
  , description := u.description.getD it.description
  , category := u.category.getD it.category
  , deadline := u.deadline.getD it.deadline
  , progress := u.progress.getD it.progress
  , completed := u.completed.getD it.completed
  , createdAt := u.createdAt.getD it.createdAt
  , updatedAt := now }

/-- The per-record function of the `items.map` in `updateItem`
(src/unnamed/part_002 lines 164-166). -/
def updMapFun (now id : String) (u : ItemUpdates) (it : BucketListItem) :
    BucketListItem :=
  if it.id == id then applyUpdates now u it else it

/-- `updateItem` (src/unnamed/part_002 lines 149-196): a missing id throws,
is caught, stores the error message and returns null; otherwise all records
whose id matches are merged with the updates, the snapshot is persisted and
the (first) record now carrying the requested id is returned. -/
def updateItem (now id : String) (u : ItemUpdates) (s : StoreState) :
    Option BucketListItem × StoreState :=
  match s.items.find? (fun it => it.id == id) with
  | none =>
      (none, { s with error := some ("Failed to update bucket list item: " ++ id) })
  | some _ =>
      let updatedItems := s.items.map (updMapFun now id u)
      (updatedItems.find? (fun it => it.id == id),
       saveItems updatedItems { s with items := updatedItems })

/-- `deleteItem` (src/unnamed/part_002 lines 199-243): a missing id throws,
is caught, stores the error message and returns false; otherwise every
record with that id is filtered out, the snapshot persisted. -/
def deleteItem (id : String) (s : StoreState) : Bool × StoreState :=
  match s.items.find? (fun it => it.id == id) with
  | none =>
      (false, { s with error := some ("Failed to delete bucket list item: " ++ id) })
  | some _ =>
      let updatedItems := s.items.filter (fun it => it.id != id)
      (true, saveItems updatedItems { s with items := updatedItems })

/-- The `updates` object built by `toggleComplete` (src/unnamed/part_002
lines 254-258): flip `completed`; when flipping to true force progress to
100, when flipping to false keep the record's current progress. -/
def toggleUpdates (item : BucketListItem) : ItemUpdates :=
  { completed := some (!item.completed)
  , progress := some (if !item.completed then 100 else item.progress) }

/-- `toggleComplete` (src/unnamed/part_002 lines 246-286): a missing id
throws, is caught, stores the error message and returns null; otherwise the
toggle updates are routed through `updateItem`. -/
def toggleComplete (now id : String) (s : StoreState) :
    Option BucketListItem × StoreState :=
  match s.items.find? (fun it => it.id == id) with
  | none =>
      (none, { s with error := some ("Failed to toggle completion for item: " ++ id) })
  | some item => updateItem now id (toggleUpdates item) s

/-- The record produced by toggling `item` (its image under the update map
of the `updateItem` call made by `toggleComplete`). -/
def toggledOf (now : String) (item : BucketListItem) : BucketListItem :=
  applyUpdates now (toggleUpdates item) item

/-- The form draft of `handleSubmit` (src/unnamed/part_001 lines 39-45):
`formData` holds title, description, category, deadline and progress. -/
structure GoalDraft where
  title : String
  description : String
  category : String
  deadline : Option Int
  progress : Int
  deriving DecidableEq

/-- The add branch of `handleSubmit` (src/unnamed/part_001 lines 113-128):
`addItem({ ...formData, completed: formData.progress === 100 })`. -/
def submitNewGoal (now newId : String) (f : GoalDraft) (s : StoreState) :
    BucketListItem × StoreState :=
  addItem now newId
    { title := f.title
    , description := f.description
    , category := f.category
    , deadline := f.deadline
    , progress := f.progress
    , completed := f.progress == 100 } s

/-- The derived statistics record (src/unnamed/part_002 lines 303-308). -/
structure GoalStats where
  total : Nat
  completed : Nat
  overdue : Nat
  averageProgress : Rat
  deriving DecidableEq

/-- The overdue test of the stats computation (src/unnamed/part_002 line
306): `item.deadline && new Date(item.deadline) < new Date() &&
!item.completed`.  A missing (or empty, hence falsy) deadline is `none`. -/
def isOverdueItem (nowMs : Int) (it : BucketListItem) : Bool :=
  match it.deadline with
  | none => false
  | some d => decide (d < nowMs) && !it.completed

/-- The `stats` object (src/unnamed/part_002 lines 303-308), computed over
the current collection; `nowMs` is the value of `new Date()` used by the
overdue comparison. -/
def stats (nowMs : Int) (items : List BucketListItem) : GoalStats :=
  { total := items.length
  , completed := (items.filter (fun it => it.completed)).length
  , overdue := (items.filter (isOverdueItem nowMs)).length
  , averageProgress :=
      if items.length > 0 then
        ((items.foldl (fun sum it => sum + it.progress) 0 : Int) : Rat) /
          (items.length : Rat)
      else 0 }

/-- `filteredItems` (src/unnamed/part_001 line 226, src/unnamed/part_000
line 138): the "all" sentinel returns the collection unfiltered, any other
selected category filters by equality. -/
def filteredItems (selectedCategory : String) (items : List BucketListItem) :
    List BucketListItem :=
  if selectedCategory == "all" then items
  else items.filter (fun it => it.category == selectedCategory)

/-- The fixed category tags of the `categories` array (src/unnamed/part_001
lines 21-30). -/
def categoryValues : List String :=
  ["travel", "career", "fitness", "personal", "family", "learning",
   "creative", "adventure"]

/-- One store mutation, with the nondeterministic inputs (timestamps,
generated id) externalized. -/
inductive StoreOp where
  | add (now newId : String) (d : ItemData)
  | update (now id : String) (u : ItemUpdates)
  | del (id : String)
  | toggle (now id : String)
  deriving DecidableEq

/-- Run one mutation against the store state. -/
def runOp (s : StoreState) (op : StoreOp) : StoreState :=
  match op with
  | StoreOp.add now newId d => (addItem now newId d s).2
  | StoreOp.update now id u => (updateItem now id u s).2
  | StoreOp.del id => (deleteItem id s).2
  | StoreOp.toggle now id => (toggleComplete now id s).2

/-- Run a sequence of mutations left to right. -/
def runOps (s : StoreState) (ops : List StoreOp) : StoreState :=
  ops.foldl runOp s

/-! ### Helper lemmas -/

/-- Under unique ids, `find` locates exactly the member carrying the id. -/
theorem find_id_of_mem_nodup {l : List BucketListItem} {r : BucketListItem}
    {id : String} (hmem : r ∈ l) (hid : r.id = id)
    (hnodup : (l.map (fun it => it.id)).Nodup) :
    l.find? (fun it => it.id == id) = some r := by
  induction l with
  | nil => cases hmem
  | cons a tl ih =>
      simp only [List.map_cons, List.nodup_cons] at hnodup
      rcases List.mem_cons.mp hmem with rfl | htl
      · exact List.find?_cons_of_pos _ (by simp [hid])
      · have hneq : a.id ≠ id := by
          intro he
          exact hnodup.1 (he ▸ hid ▸ List.mem_map_of_mem (fun it => it.id) htl)
        rw [List.find?_cons_of_neg _ (by simp [hneq])]
        exact ih htl hnodup.2

/-- Mapping an id-preserving function through the collection commutes with
`find` by id. -/
theorem find_id_map_of_id_preserved {g : BucketListItem → BucketListItem}
    (hg : ∀ it, (g it).id = it.id) (id : String) (l : List BucketListItem) :
    (l.map g).find? (fun it => it.id == id) =
      (l.find? (fun it => it.id == id)).map g := by
  induction l with
  | nil => rfl
  | cons a tl ih =>
      by_cases h : a.id = id
      · rw [List.map_cons, List.find?_cons_of_pos _ (by simp [hg, h]),
          List.find?_cons_of_pos _ (by simp [h])]
        rfl
      · rw [List.map_cons, List.find?_cons_of_neg _ (by simp [hg, h]),
          List.find?_cons_of_neg _ (by simp [h])]
        exact ih

/-- Mapping an id-preserving function leaves the id sequence unchanged. -/
theorem map_ids_of_id_preserved {g : BucketListItem → BucketListItem}
    (hg : ∀ it, (g it).id = it.id) (l : List BucketListItem) :
    (l.map g).map (fun it => it.id) = l.map (fun it => it.id) := by
  induction l with
  | nil => rfl
  | cons a tl ih => simp [hg, ih]

/-- When the update object carries no `id` field, the merge keeps each
record's id. -/
theorem applyUpdates_id_of_none {u : ItemUpdates} (hu : u.id = none)
    (now : String) (it : BucketListItem) :
    (applyUpdates now u it).id = it.id := by
  simp [applyUpdates, hu]

/-- The `updateItem` map function preserves ids when the update object
carries no `id` field. -/
theorem updMapFun_id_of_none {u : ItemUpdates} (hu : u.id = none)
    (now id : String) (it : BucketListItem) :
    (updMapFun now id u it).id = it.id := by
  unfold updMapFun
  by_cases h : (it.id == id) = true
  · simp [h, applyUpdates_id_of_none hu]
  · simp [h]

/-- Characterization of a successful `updateItem` whose update object does
not rewrite ids. -/
theorem updateItem_found {s : StoreState} {r : BucketListItem} {id : String}
    (now : String) (u : ItemUpdates) (hu : u.id = none)
    (hfind : s.items.find? (fun it => it.id == id) = some r) :
    updateItem now id u s =
      (some (applyUpdates now u r),
       saveItems (s.items.map (updMapFun now id u))
         { s with items := s.items.map (updMapFun now id u) }) := by
  have hpr := List.find?_some hfind
  simp only [beq_iff_eq] at hpr
  unfold updateItem
  rw [hfind]
  have hmapfind :
      (s.items.map (updMapFun now id u)).find? (fun it => it.id == id) =
        some (applyUpdates now u r) := by
    rw [find_id_map_of_id_preserved (updMapFun_id_of_none hu now id) id, hfind]
    simp [updMapFun, hpr]
  simp [hmapfind]

/-- Characterization of a successful `toggleComplete`. -/
theorem toggleComplete_found {s : StoreState} {r : BucketListItem}
    {id : String} (now : String) (hmem : r ∈ s.items) (hid : r.id = id)
    (hnodup : (s.items.map (fun it => it.id)).Nodup) :
    toggleComplete now id s =
      (some (toggledOf now r),
       saveItems (s.items.map (updMapFun now id (toggleUpdates r)))
         { s with items := s.items.map (updMapFun now id (toggleUpdates r)) }) := by
  have hfind := find_id_of_mem_nodup hmem hid hnodup
  unfold toggleComplete
  rw [hfind]
  exact updateItem_found now (toggleUpdates r) rfl hfind

/-- Field values of a toggled record. -/
theorem toggledOf_fields (now : String) (r : BucketListItem) :
    (toggledOf now r).completed = !r.completed ∧
    (toggledOf now r).progress = (if r.completed then r.progress else 100) ∧
    (toggledOf now r).id = r.id := by
  refine ⟨by simp [toggledOf, applyUpdates, toggleUpdates], ?_,
    by simp [toggledOf, applyUpdates, toggleUpdates]⟩
  cases h : r.completed <;> simp [toggledOf, applyUpdates, toggleUpdates, h]

/-- A left fold accumulating progress equals the accumulator plus the sum
of the progress values. -/
theorem foldl_progress_sum (l : List BucketListItem) (a : Int) :
    l.foldl (fun sum it => sum + it.progress) a =
      a + (l.map (fun it => it.progress)).sum := by
  induction l generalizing a with
  | nil => simp
  | cons x tl ih => simp [ih, add_assoc]

/-! ### Concrete fixtures used by the witnesses -/

/-- A concrete incomplete record. -/
def itemA : BucketListItem :=
  { id := "a", title := "climb", description := "", category := "travel"
  , deadline := some 50, progress := 40, completed := false
  , createdAt := "c0", updatedAt := "c0" }

/-- A concrete completed record. -/
def itemB : BucketListItem :=
  { id := "b", title := "run", description := "", category := "fitness"
  , deadline := none, progress := 100, completed := true
  , createdAt := "c1", updatedAt := "c1" }

/-- A concrete store state holding `itemA` and `itemB`. -/
def stateAB : StoreState :=
  { items := [itemA, itemB], error := none, storage := none, writes := [] }

/-- A concrete draft as produced by the add form. -/
def dTravel : ItemData :=
  { title := "see paris", description := "", category := "travel"
  , deadline := none, progress := 0, completed := false }

/-- A concrete operation sequence whose adds use fresh ids and whose update
does not touch the id field. -/
def opsW : List StoreOp :=
  [StoreOp.add "t0" "x" dTravel,
   StoreOp.add "t1" "y" dTravel,
   StoreOp.toggle "t2" "x",
   StoreOp.update "t3" "y" { progress := some 50 },
   StoreOp.del "x"]

/-- The id sequence of the collection after a successful `updateItem` whose
update object does not rewrite ids is unchanged. -/
theorem updateItem_ids_of_none (now id : String) (u : ItemUpdates)
    (s : StoreState) (hu : u.id = none) :
    (updateItem now id u s).2.items.map (fun it => it.id) =
      s.items.map (fun it => it.id) := by
  cases hfind : s.items.find? (fun it => it.id == id) with
  | none =>
      unfold updateItem
      rw [hfind]
  | some r =>
      rw [updateItem_found now u hu hfind]
      exact map_ids_of_id_preserved (updMapFun_id_of_none hu now id) s.items

/-- `toggleComplete` never changes the id sequence of the collection. -/
theorem toggleComplete_ids (now id : String) (s : StoreState) :
    (toggleComplete now id s).2.items.map (fun it => it.id) =
      s.items.map (fun it => it.id) := by
  unfold toggleComplete
  cases hfind : s.items.find? (fun it => it.id == id) with
  | none => rfl
  | some item => exact updateItem_ids_of_none now id (toggleUpdates item) s rfl

/-- The id sequence after `deleteItem` is a sublist of the original one. -/
theorem deleteItem_ids_sublist (id : String) (s : StoreState) :
    ((deleteItem id s).2.items.map (fun it => it.id)).Sublist
      (s.items.map (fun it => it.id)) := by
  unfold deleteItem
  cases hfind : s.items.find? (fun it => it.id == id) with
  | none => exact List.Sublist.refl _
  | some r => exact (List.filter_sublist s.items).map (fun it => it.id)

/-- The id sequence after `addItem` is the original one with the generated
id appended. -/
theorem addItem_ids (now newId : String) (d : ItemData) (s : StoreState) :
    (addItem now newId d s).2.items.map (fun it => it.id) =
      s.items.map (fun it => it.id) ++ [newId] := by
  simp [addItem, saveItems, mkNewItem]

/-- A mutation is id-safe in a given state when an add's generated id is
fresh there and an update does not rewrite the id field. -/
def idSafeOp (s : StoreState) : StoreOp → Bool
  | StoreOp.add _ newId _ => !(s.items.any (fun it => it.id == newId))
  | StoreOp.update _ _ u => u.id.isNone
  | _ => true

/-- A run is id-safe when every operation is id-safe in the state where it
executes. -/
def idSafeRun (s : StoreState) : List StoreOp → Bool
  | [] => true
  | op :: ops => idSafeOp s op && idSafeRun (runOp s op) ops

/-- One id-safe mutation preserves id uniqueness. -/
theorem ids_nodup_runOp (s : StoreState) (op : StoreOp)
    (hsafe : idSafeOp s op = true)
    (h : (s.items.map (fun it => it.id)).Nodup) :
    ((runOp s op).items.map (fun it => it.id)).Nodup := by
  cases op with
  | add now newId d =>
      have hfresh : newId ∉ s.items.map (fun it => it.id) := by
        simp only [idSafeOp, Bool.not_eq_true', List.any_eq_false,
          beq_iff_eq] at hsafe
        intro hmemid
        obtain ⟨it, hit, hide⟩ := List.mem_map.mp hmemid
        exact hsafe it hit hide
      show ((addItem now newId d s).2.items.map (fun it => it.id)).Nodup
      rw [addItem_ids, ← List.concat_eq_append]
      exact List.Nodup.concat hfresh h
  | update now id u =>
      have hu : u.id = none := by
        simp only [idSafeOp, Option.isNone_iff_eq_none] at hsafe
        exact hsafe
      show ((updateItem now id u s).2.items.map (fun it => it.id)).Nodup
      rw [updateItem_ids_of_none now id u s hu]
      exact h
  | del id =>
      show ((deleteItem id s).2.items.map (fun it => it.id)).Nodup
      exact h.sublist (deleteItem_ids_sublist id s)
  | toggle now id =>
      show ((toggleComplete now id s).2.items.map (fun it => it.id)).Nodup
      rw [toggleComplete_ids]
      exact h

/-- C4 counterexample: starting from the empty collection, two adds whose
generated ids collide (part_000 generates `Date.now().toString()`, so two
adds in the same millisecond produce the same id; part_002 appends a random
suffix but never checks for collisions either) leave two records with the
same id in the collection, refuting the claim as stated. -/
theorem add_repeated_id_duplicates :
    ((runOps (initState none)
        [StoreOp.add "2024-01-01" "1700000000000" dTravel,
         StoreOp.add "2024-01-01" "1700000000000" dTravel]).items.map
      (fun it => it.id)) = ["1700000000000", "1700000000000"] ∧
    ¬ (["1700000000000", "1700000000000"] : List String).Nodup := by
  constructor
  · rfl
  · decide

/-- C4 (amended): for every id-safe sequence of add, update, delete and
toggle operations (each add's generated id is fresh and no update supplies
the id field) starting from a collection with unique ids, the resulting
collection never contains two records with the same id. -/
theorem unique_ids_invariant (s : StoreState) (ops : List StoreOp)
    (h1 : (s.items.map (fun it => it.id)).Nodup)
    (h2 : idSafeRun s ops = true) :
    ((runOps s ops).items.map (fun it => it.id)).Nodup := by
  induction ops generalizing s with
  | nil => exact h1
  | cons op ops ih =>
      simp only [idSafeRun, Bool.and_eq_true] at h2
      exact ih (runOp s op) (ids_nodup_runOp s op h2.1 h1) h2.2

/-- Witness for the amended C4 at a concrete id-safe run. -/
theorem unique_ids_invariant_witness :
    ((initState none).items.map (fun it => it.id)).Nodup ∧
    idSafeRun (initState none) opsW = true ∧
    ((runOps (initState none) opsW).items.map (fun it => it.id)).Nodup :=
  ⟨by decide, by decide,
   unique_ids_invariant (initState none) opsW (by decide) (by decide)⟩

/-! ### Claims -/

/-- C1: for every record `r` in the collection, `toggleComplete` on `r.id`
applied when `r.completed` is false yields a record with `completed = true`
and `progress = 100`; applied when `r.completed` is true it yields a record
with `completed = false` and `progress` equal to its pre-toggle value
(progress is not reset). -/
theorem toggleComplete_flips (now id : String) (s : StoreState)
    (r : BucketListItem) (hmem : r ∈ s.items) (hid : r.id = id)
    (hnodup : (s.items.map (fun it => it.id)).Nodup) :
    ∃ r1, (toggleComplete now id s).1 = some r1 ∧
      r1 ∈ (toggleComplete now id s).2.items ∧
      (r.completed = false → r1.completed = true ∧ r1.progress = 100) ∧
      (r.completed = true → r1.completed = false ∧ r1.progress = r.progress) := by
  have h := toggleComplete_found now hmem hid hnodup
  obtain ⟨h1, h2, _⟩ := toggledOf_fields now r
  refine ⟨toggledOf now r, by rw [h], ?_, ?_, ?_⟩
  · rw [h]
    show toggledOf now r ∈ s.items.map (updMapFun now id (toggleUpdates r))
    have heq : updMapFun now id (toggleUpdates r) r = toggledOf now r := by
      simp [updMapFun, hid, toggledOf]
    exact heq ▸ List.mem_map_of_mem _ hmem
  · intro hc
    exact ⟨by simp [h1, hc], by simp [h2, hc]⟩
  · intro hc
    exact ⟨by simp [h1, hc], by simp [h2, hc]⟩

/-- Witness for C1 at the concrete incomplete record `itemA`. -/
theorem toggleComplete_flips_witness :
    itemA ∈ stateAB.items ∧ itemA.id = "a" ∧
    (stateAB.items.map (fun it => it.id)).Nodup ∧
    (∃ r1, (toggleComplete "t1" "a" stateAB).1 = some r1 ∧
      r1 ∈ (toggleComplete "t1" "a" stateAB).2.items ∧
      (itemA.completed = false → r1.completed = true ∧ r1.progress = 100) ∧
      (itemA.completed = true → r1.completed = false ∧
        r1.progress = itemA.progress)) :=
  ⟨by decide, by decide, by decide,
   toggleComplete_flips "t1" "a" stateAB itemA (by decide) (by decide) (by decide)⟩

/-- C2: applying `toggleComplete` twice (reading the state between the two
applications) returns `completed` to its original value; after a single
false-to-true toggle the record's progress equals 100, and after a single
true-to-false toggle the record's progress equals its pre-toggle value. -/
theorem toggleComplete_double_toggle (now1 now2 id : String) (s : StoreState)
    (r : BucketListItem) (hmem : r ∈ s.items) (hid : r.id = id)
    (hnodup : (s.items.map (fun it => it.id)).Nodup) :
    ∃ r1 r2,
      (toggleComplete now1 id s).1 = some r1 ∧
      (toggleComplete now2 id (toggleComplete now1 id s).2).1 = some r2 ∧
      r2.completed = r.completed ∧
      (r.completed = false → r1.completed = true ∧ r1.progress = 100) ∧
      (r.completed = true → r1.completed = false ∧ r1.progress = r.progress) := by
  have h1 := toggleComplete_found now1 hmem hid hnodup
  have hs1items : (toggleComplete now1 id s).2.items =
      s.items.map (updMapFun now1 id (toggleUpdates r)) := by
    rw [h1]
    rfl
  have hgpres := updMapFun_id_of_none (u := toggleUpdates r) rfl now1 id
  have hmem2 : toggledOf now1 r ∈ (toggleComplete now1 id s).2.items := by
    rw [hs1items]
    have heq : updMapFun now1 id (toggleUpdates r) r = toggledOf now1 r := by
      simp [updMapFun, hid, toggledOf]
    exact heq ▸ List.mem_map_of_mem _ hmem
  have hid2 : (toggledOf now1 r).id = id := by
    rw [(toggledOf_fields now1 r).2.2, hid]
  have hnodup2 :
      ((toggleComplete now1 id s).2.items.map (fun it => it.id)).Nodup := by
    rw [hs1items, map_ids_of_id_preserved hgpres]
    exact hnodup
  have h2 := toggleComplete_found now2 hmem2 hid2 hnodup2
  obtain ⟨a1, a2, _⟩ := toggledOf_fields now1 r
  have b1 := (toggledOf_fields now2 (toggledOf now1 r)).1
  refine ⟨toggledOf now1 r, toggledOf now2 (toggledOf now1 r),
    by rw [h1], by rw [h2], ?_, ?_, ?_⟩
  · rw [b1, a1, Bool.not_not]
  · intro hc
    exact ⟨by simp [a1, hc], by simp [a2, hc]⟩
  · intro hc
    exact ⟨by simp [a1, hc], by simp [a2, hc]⟩

/-- Witness for C2 at the concrete completed record `itemB`. -/
theorem toggleComplete_double_toggle_witness :
    itemB ∈ stateAB.items ∧ itemB.id = "b" ∧
    (stateAB.items.map (fun it => it.id)).Nodup ∧
    (∃ r1 r2,
      (toggleComplete "t1" "b" stateAB).1 = some r1 ∧
      (toggleComplete "t2" "b" (toggleComplete "t1" "b" stateAB).2).1 = some r2 ∧
      r2.completed = itemB.completed ∧
      (itemB.completed = false → r1.completed = true ∧ r1.progress = 100) ∧
      (itemB.completed = true → r1.completed = false ∧
        r1.progress = itemB.progress)) :=
  ⟨by decide, by decide, by decide,
   toggleComplete_double_toggle "t1" "t2" "b" stateAB itemB
     (by decide) (by decide) (by decide)⟩

/-- C3: for an id absent from the collection, `updateItem` reports a
not-found error outcome to the caller (a `none` result plus the stored
error message) while the in-memory collection, the storage blob and the
write log are all left unchanged. -/
theorem updateItem_missing_id (now id : String) (u : ItemUpdates)
    (s : StoreState) (h : ∀ it ∈ s.items, it.id ≠ id) :
    updateItem now id u s =
      (none,
       { s with error := some ("Failed to update bucket list item: " ++ id) }) := by
  have hfind : s.items.find? (fun it => it.id == id) = none := by
    rw [List.find?_eq_none]
    intro it hit
    simp [h it hit]
  unfold updateItem
  rw [hfind]

/-- Witness for C3 at an id not present in the concrete store. -/
theorem updateItem_missing_id_witness :
    (∀ it ∈ stateAB.items, it.id ≠ "zzz") ∧
    updateItem "t9" "zzz" {} stateAB =
      (none,
       { stateAB with
         error := some ("Failed to update bucket list item: " ++ "zzz") }) :=
  ⟨by decide, updateItem_missing_id "t9" "zzz" {} stateAB (by decide)⟩

/-- A concrete form draft whose progress is 100. -/
def draftG : GoalDraft :=
  { title := "learn lean", description := "", category := "learning"
  , deadline := none, progress := 100 }

/-- C5 counterexample: the claim's "generates a new unique id" fails when
the uncheck-for-collisions generator repeats: two form submissions whose
generated id is the same string (part_000 generates `Date.now().toString()`,
identical within a millisecond) return a record whose id occurs twice in
the resulting collection, so the id of the second created record is not
unique. -/
theorem submitNewGoal_colliding_id_not_unique :
    ((submitNewGoal "t1" "dup" draftG
        (submitNewGoal "t0" "dup" draftG (initState none)).2).2.items.map
      (fun it => it.id)) = ["dup", "dup"] ∧
    (submitNewGoal "t1" "dup" draftG
        (submitNewGoal "t0" "dup" draftG (initState none)).2).1.id = "dup" ∧
    ¬ (["dup", "dup"] : List String).Nodup := by
  refine ⟨rfl, rfl, ?_⟩
  decide

/-- C5 (amended): provided the generated id is fresh with respect to the
current collection (the store never collision-checks its generator), adding
a draft through the form boundary uses that id (unique in the resulting
collection), stamps `createdAt` and `updatedAt` with the current time,
derives `completed` as `progress == 100`, appends the record, persists the
full snapshot and returns the created record. -/
theorem submitNewGoal_spec (now newId : String) (f : GoalDraft)
    (s : StoreState) (hfresh : ∀ it ∈ s.items, it.id ≠ newId) :
    (submitNewGoal now newId f s).1.id = newId ∧
    (submitNewGoal now newId f s).1.createdAt = now ∧
    (submitNewGoal now newId f s).1.updatedAt = now ∧
    ((submitNewGoal now newId f s).1.completed = true ↔ f.progress = 100) ∧
    (submitNewGoal now newId f s).2.items =
      s.items ++ [(submitNewGoal now newId f s).1] ∧
    (submitNewGoal now newId f s).2.storage =
      some (StoredBlob.ok ((submitNewGoal now newId f s).2.items)) ∧
    (submitNewGoal now newId f s).2.writes =
      (submitNewGoal now newId f s).2.items :: s.writes ∧
    (∀ it ∈ s.items, it.id ≠ (submitNewGoal now newId f s).1.id) := by
  refine ⟨rfl, rfl, rfl, ?_, rfl, rfl, rfl, ?_⟩
  · show ((f.progress == 100) = true ↔ f.progress = 100)
    exact beq_iff_eq
  · intro it hit
    exact hfresh it hit

/-- Witness for C5 at a concrete draft and fresh id. -/
theorem submitNewGoal_spec_witness :
    (∀ it ∈ stateAB.items, it.id ≠ "g1") ∧
    ((submitNewGoal "t5" "g1" draftG stateAB).1.id = "g1" ∧
     (submitNewGoal "t5" "g1" draftG stateAB).1.createdAt = "t5" ∧
     (submitNewGoal "t5" "g1" draftG stateAB).1.updatedAt = "t5" ∧
     ((submitNewGoal "t5" "g1" draftG stateAB).1.completed = true ↔
        draftG.progress = 100) ∧
     (submitNewGoal "t5" "g1" draftG stateAB).2.items =
       stateAB.items ++ [(submitNewGoal "t5" "g1" draftG stateAB).1] ∧
     (submitNewGoal "t5" "g1" draftG stateAB).2.storage =
       some (StoredBlob.ok ((submitNewGoal "t5" "g1" draftG stateAB).2.items)) ∧
     (submitNewGoal "t5" "g1" draftG stateAB).2.writes =
       (submitNewGoal "t5" "g1" draftG stateAB).2.items :: stateAB.writes ∧
     (∀ it ∈ stateAB.items,
        it.id ≠ (submitNewGoal "t5" "g1" draftG stateAB).1.id)) :=
  ⟨by decide, submitNewGoal_spec "t5" "g1" draftG stateAB (by decide)⟩

/-- C6: the derived statistics are faithful: `total` is the record count,
`completed` counts the completed records and never exceeds `total`,
`overdue` counts the records with a deadline strictly before the current
time that are not completed, and `averageProgress` is the mean of the
progress values (0 on the empty collection). -/
theorem stats_spec (nowMs : Int) (items : List BucketListItem) :
    (stats nowMs items).total = items.length ∧
    (stats nowMs items).completed = items.countP (fun it => it.completed) ∧
    (stats nowMs items).completed ≤ (stats nowMs items).total ∧
    (stats nowMs items).overdue =
      items.countP (fun it =>
        it.deadline.any (fun d => decide (d < nowMs)) && !it.completed) ∧
    (stats nowMs items).averageProgress =
      ((items.map (fun it => it.progress)).sum : Rat) / (items.length : Rat) ∧
    (stats nowMs ([] : List BucketListItem)).averageProgress = 0 := by
  refine ⟨rfl, ?_, ?_, ?_, ?_, rfl⟩
  · rw [List.countP_eq_length_filter]
    rfl
  · exact List.length_filter_le _ _
  · rw [List.countP_eq_length_filter]
    show (items.filter (isOverdueItem nowMs)).length = _
    congr 1
    apply List.filter_congr
    intro it _
    cases hd : it.deadline <;> simp [isOverdueItem, hd]
  · show (if items.length > 0 then
        ((items.foldl (fun sum it => sum + it.progress) 0 : Int) : Rat) /
          (items.length : Rat)
      else 0) = _
    cases items with
    | nil => simp
    | cons x tl =>
        rw [if_pos (by simp)]
        rw [foldl_progress_sum, zero_add, Int.cast_list_sum, List.map_map]
        rfl

/-- C7: filtering by the "all" sentinel returns the collection unchanged,
and filtering by any of the fixed category tags returns exactly the records
of that category in their original relative order. -/
theorem filteredItems_spec (cat : String) (items : List BucketListItem)
    (hcat : cat ∈ categoryValues) :
    filteredItems "all" items = items ∧
    filteredItems cat items = items.filter (fun it => it.category == cat) ∧
    (filteredItems cat items).Sublist items ∧
    (∀ it ∈ filteredItems cat items, it.category = cat) ∧
    (∀ it ∈ items, it.category = cat → it ∈ filteredItems cat items) := by
  have hne : (cat == "all") = false := by
    simp only [categoryValues, List.mem_cons, List.not_mem_nil, or_false] at hcat
    rcases hcat with rfl | rfl | rfl | rfl | rfl | rfl | rfl | rfl <;> decide
  have h2 : filteredItems cat items =
      items.filter (fun it => it.category == cat) := by
    simp [filteredItems, hne]
  refine ⟨by simp [filteredItems], h2, ?_, ?_, ?_⟩
  · rw [h2]
    exact List.filter_sublist items
  · intro it hit
    rw [h2] at hit
    have := (List.mem_filter.mp hit).2
    simpa using this
  · intro it hit hc
    rw [h2]
    exact List.mem_filter.mpr ⟨hit, by simp [hc]⟩

/-- Witness for C7 at the "travel" tag over the concrete collection. -/
theorem filteredItems_spec_witness :
    "travel" ∈ categoryValues ∧
    (filteredItems "all" stateAB.items = stateAB.items ∧
     filteredItems "travel" stateAB.items =
       stateAB.items.filter (fun it => it.category == "travel") ∧
     (filteredItems "travel" stateAB.items).Sublist stateAB.items ∧
     (∀ it ∈ filteredItems "travel" stateAB.items, it.category = "travel") ∧
     (∀ it ∈ stateAB.items, it.category = "travel" →
        it ∈ filteredItems "travel" stateAB.items)) :=
  ⟨by decide, filteredItems_spec "travel" stateAB.items (by decide)⟩

/-- A draft with an out-of-range progress value. -/
def d150 : ItemData :=
  { title := "bad", description := "", category := "travel"
  , deadline := none, progress := 150, completed := false }

/-- A progress value is in range when it lies in [0,100] and is a multiple
of 5. -/
def progressOk (p : Int) : Bool :=
  decide (0 ≤ p) && decide (p ≤ 100) && decide (p % 5 = 0)

/-- The progress value a mutation supplies to the store, if any, is in
range. -/
def opProgressOk : StoreOp → Bool
  | StoreOp.add _ _ d => progressOk d.progress
  | StoreOp.update _ _ u => (u.progress.map progressOk).getD true
  | _ => true

/-- C8 counterexample: the store performs no validation or clamping of
progress: adding a draft whose progress is 150 stores a record with
progress 150 in the collection, so the reachable collection is not confined
to [0,100] multiples of 5. -/
theorem addItem_stores_unvalidated_progress :
    ((runOps (initState none) [StoreOp.add "t0" "p" d150]).items.map
      (fun it => it.progress)) = [150] ∧
    progressOk 150 = false := by
  constructor
  · rfl
  · decide

/-- A successful `updateItem` whose supplied progress (if any) is in range
keeps every stored progress in range. -/
theorem updateItem_progress_ok (now id : String) (u : ItemUpdates)
    (s : StoreState)
    (hu : ∀ p, u.progress = some p → progressOk p = true)
    (h : ∀ it ∈ s.items, progressOk it.progress = true) :
    ∀ it ∈ (updateItem now id u s).2.items, progressOk it.progress = true := by
  unfold updateItem
  cases hfind : s.items.find? (fun it => it.id == id) with
  | none => exact h
  | some r =>
      show ∀ it ∈ s.items.map (updMapFun now id u), progressOk it.progress = true
      intro it hit
      obtain ⟨a, ha, rfl⟩ := List.mem_map.mp hit
      unfold updMapFun
      by_cases hidm : (a.id == id) = true
      · rw [if_pos hidm]
        show progressOk (u.progress.getD a.progress) = true
        cases hp : u.progress with
        | none => exact h a ha
        | some p => exact hu p hp
      · rw [if_neg (by simp [hidm])]
        exact h a ha

/-- `toggleComplete` keeps every stored progress in range: it writes either
100 or the found record's current progress. -/
theorem toggleComplete_progress_ok (now id : String) (s : StoreState)
    (h : ∀ it ∈ s.items, progressOk it.progress = true) :
    ∀ it ∈ (toggleComplete now id s).2.items, progressOk it.progress = true := by
  unfold toggleComplete
  cases hfind : s.items.find? (fun it => it.id == id) with
  | none => exact h
  | some item =>
      apply updateItem_progress_ok
      · intro p hp
        have hmem := List.mem_of_find?_eq_some hfind
        have hOK := h item hmem
        simp only [toggleUpdates, Option.some.injEq] at hp
        cases hc : item.completed <;> rw [hc] at hp <;> simp at hp <;>
          rw [← hp]
        · decide
        · exact hOK
      · exact h

/-- One in-range mutation preserves the progress range invariant. -/
theorem progress_ok_runOp (s : StoreState) (op : StoreOp)
    (hop : opProgressOk op = true)
    (h : ∀ it ∈ s.items, progressOk it.progress = true) :
    ∀ it ∈ (runOp s op).items, progressOk it.progress = true := by
  cases op with
  | add now newId d =>
      show ∀ it ∈ (addItem now newId d s).2.items, progressOk it.progress = true
      intro it hit
      rcases List.mem_append.mp hit with h1 | h1
      · exact h it h1
      · have heq : it = mkNewItem now newId d := by simpa using h1
        rw [heq]
        exact hop
  | update now id u =>
      apply updateItem_progress_ok
      · intro p hp
        simp only [opProgressOk, hp, Option.map_some', Option.getD_some] at hop
        exact hop
      · exact h
  | del id =>
      show ∀ it ∈ (deleteItem id s).2.items, progressOk it.progress = true
      unfold deleteItem
      cases hfind : s.items.find? (fun it => it.id == id) with
      | none => exact h
      | some r =>
          intro it hit
          exact h it (List.mem_of_mem_filter hit)
  | toggle now id => exact toggleComplete_progress_ok now id s h

/-- C8 (amended): the store performs no validation or clamping, so the
invariant is conditional on the callers: if every progress value supplied
by an add or update is in [0,100] and a multiple of 5 (as the UI range
input enforces), then every record reachable through add, update, delete
and toggle has progress in [0,100] and a multiple of 5 (`toggleComplete`
itself only ever writes 100 or an existing in-range value). -/
theorem progress_range_invariant (s : StoreState) (ops : List StoreOp)
    (h1 : ∀ it ∈ s.items, progressOk it.progress = true)
    (h2 : ∀ op ∈ ops, opProgressOk op = true) :
    ∀ it ∈ (runOps s ops).items, progressOk it.progress = true := by
  induction ops generalizing s with
  | nil => exact h1
  | cons op ops ih =>
      exact ih (runOp s op)
        (progress_ok_runOp s op (h2 op (List.mem_cons_self op ops)) h1)
        (fun o ho => h2 o (List.mem_cons_of_mem op ho))

/-- Witness for the amended C8 at a concrete in-range run. -/
theorem progress_range_invariant_witness :
    (∀ it ∈ stateAB.items, progressOk it.progress = true) ∧
    (∀ op ∈ opsW, opProgressOk op = true) ∧
    (∀ it ∈ (runOps stateAB opsW).items, progressOk it.progress = true) :=
  ⟨by decide, by decide,
   progress_range_invariant stateAB opsW (by decide) (by decide)⟩

/-- C9: `loadItems` over a corrupted snapshot leaves the collection empty,
reports the recoverable load error, and a subsequent add still succeeds:
it returns the created record, stores it as the whole collection and
persists the new snapshot. -/
theorem loadItems_corrupt_then_add (now newId : String) (d : ItemData) :
    (loadItems (initState (some StoredBlob.bad))).items = [] ∧
    (loadItems (initState (some StoredBlob.bad))).error =
      some "Failed to load bucket list items from localStorage" ∧
    (addItem now newId d (loadItems (initState (some StoredBlob.bad)))).1 =
      mkNewItem now newId d ∧
    (addItem now newId d (loadItems (initState (some StoredBlob.bad)))).2.items =
      [mkNewItem now newId d] ∧
    (addItem now newId d (loadItems (initState (some StoredBlob.bad)))).2.storage =
      some (StoredBlob.ok [mkNewItem now newId d]) ∧
    (addItem now newId d (loadItems (initState (some StoredBlob.bad)))).2.writes =
      [[mkNewItem now newId d]] :=
  ⟨rfl, rfl, rfl, rfl, rfl, rfl⟩

/-- C10: on an existing id, `updateItem` and `toggleComplete` rewrite the
collection pointwise (every record whose id differs from the target is
mapped to itself, so it is left unchanged, and length and order are
preserved), and `deleteItem` removes exactly the one record carrying the
id, preserving the relative order of the rest. -/
theorem mutation_frame_spec (now id : String) (u : ItemUpdates)
    (s : StoreState) (r : BucketListItem) (hmem : r ∈ s.items)
    (hid : r.id = id) (hnodup : (s.items.map (fun it => it.id)).Nodup) :
    ((updateItem now id u s).2.items = s.items.map (updMapFun now id u) ∧
     (updateItem now id u s).2.items.length = s.items.length) ∧
    ((toggleComplete now id s).2.items =
       s.items.map (updMapFun now id (toggleUpdates r)) ∧
     (toggleComplete now id s).2.items.length = s.items.length) ∧
    (∀ it : BucketListItem, it.id ≠ id → updMapFun now id u it = it) ∧
    (∀ it : BucketListItem, it.id ≠ id →
       updMapFun now id (toggleUpdates r) it = it) ∧
    (∃ l1 l2, s.items = l1 ++ r :: l2 ∧
       (deleteItem id s).2.items = l1 ++ l2) := by
  have hfind := find_id_of_mem_nodup hmem hid hnodup
  have hupd : (updateItem now id u s).2.items =
      s.items.map (updMapFun now id u) := by
    unfold updateItem
    rw [hfind]
    rfl
  have htog : (toggleComplete now id s).2.items =
      s.items.map (updMapFun now id (toggleUpdates r)) := by
    unfold toggleComplete
    rw [hfind]
    unfold updateItem
    rw [hfind]
    rfl
  have hframe : ∀ (v : ItemUpdates) (it : BucketListItem),
      it.id ≠ id → updMapFun now id v it = it := by
    intro v it hne
    unfold updMapFun
    rw [if_neg (by simp [hne])]
  refine ⟨⟨hupd, by rw [hupd, List.length_map]⟩,
    ⟨htog, by rw [htog, List.length_map]⟩, hframe u, hframe (toggleUpdates r), ?_⟩
  obtain ⟨l1, l2, hsplit⟩ := List.append_of_mem hmem
  have hdel : (deleteItem id s).2.items =
      s.items.filter (fun it => it.id != id) := by
    unfold deleteItem
    rw [hfind]
    rfl
  have hnodup2 := hnodup
  rw [hsplit, List.map_append, List.map_cons] at hnodup2
  have hmid := List.nodup_middle.mp hnodup2
  have hnotmem : r.id ∉ l1.map (fun it => it.id) ++ l2.map (fun it => it.id) :=
    (List.nodup_cons.mp hmid).1
  have hl1 : ∀ x ∈ l1, (x.id != id) = true := by
    intro x hx
    have : x.id ≠ r.id := by
      intro he
      exact hnotmem (List.mem_append_left _ (he ▸ List.mem_map_of_mem _ hx))
    simp [hid ▸ this]
  have hl2 : ∀ x ∈ l2, (x.id != id) = true := by
    intro x hx
    have : x.id ≠ r.id := by
      intro he
      exact hnotmem (List.mem_append_right _ (he ▸ List.mem_map_of_mem _ hx))
    simp [hid ▸ this]
  refine ⟨l1, l2, hsplit, ?_⟩
  rw [hdel, hsplit, List.filter_append, List.filter_cons,
    if_neg (by simp [hid]), List.filter_eq_self.mpr hl1,
    List.filter_eq_self.mpr hl2]

/-- Witness for C10 at a concrete collection, update and target id. -/
theorem mutation_frame_spec_witness :
    itemA ∈ stateAB.items ∧ itemA.id = "a" ∧
    (stateAB.items.map (fun it => it.id)).Nodup ∧
    (((updateItem "t7" "a" { title := some "new" } stateAB).2.items =
        stateAB.items.map (updMapFun "t7" "a" { title := some "new" }) ∧
      (updateItem "t7" "a" { title := some "new" } stateAB).2.items.length =
        stateAB.items.length) ∧
     ((toggleComplete "t7" "a" stateAB).2.items =
        stateAB.items.map (updMapFun "t7" "a" (toggleUpdates itemA)) ∧
      (toggleComplete "t7" "a" stateAB).2.items.length =
        stateAB.items.length) ∧
     (∀ it : BucketListItem, it.id ≠ "a" →
        updMapFun "t7" "a" { title := some "new" } it = it) ∧
     (∀ it : BucketListItem, it.id ≠ "a" →
        updMapFun "t7" "a" (toggleUpdates itemA) it = it) ∧
     (∃ l1 l2, stateAB.items = l1 ++ itemA :: l2 ∧
        (deleteItem "a" stateAB).2.items = l1 ++ l2)) :=
  ⟨by decide, by decide, by decide,
   mutation_frame_spec "t7" "a" { title := some "new" } stateAB itemA
     (by decide) (by decide) (by decide)⟩
